import Mathlib

/-!
# Shallow embedding of the `atomics` shared-memory counter kernel

This file embeds the JavaScript sources of `src/atomics/src/public/`:

* `mutex.js` — class `Mutex`: a two-state lock (UNLOCKED = 0, LOCKED = 1)
  over slot 0 of an `Int32Array` view of a `SharedArrayBuffer`, acquired via
  `Atomics.compareExchange`, blocking via `Atomics.wait`, released via a
  compare-exchange plus `Atomics.notify(…, 1)`.
* `counter-example1.js` — class `Counter` (naive): plain read-modify-write
  on slot 0 of a `Uint32Array` view.
* `counter-example2.js` — class `Counter` (atomic): `Atomics.load` /
  `Atomics.add` / `Atomics.sub` on the same slot.
* `counter-example3.js` — class `Counter` (guarded): the naive
  read-modify-write wrapped in `mutex.lock()` / `mutex.unlock()`.
* `counting-worker.js` — `handleMessageFromMain`: on a message, construct
  the selected `Counter` over `data.sharedCounterBuffer`, run 100,000
  increments or decrements selected by `data.operation`, and post
  `{done: true, count: counter.value}`; any other tag returns silently.

Machine integers are modelled as `Nat`/`Int` with explicit reduction
modulo `2 ^ 32` where the `Uint32Array` store wraps.  Slot contents are
the state threaded through each operation; JavaScript exceptions are
modelled by an explicit error type.
-/

/-- The modulus of a `Uint32Array` element: `2 ^ 32`. -/
def UINT32_MOD : Nat := 2 ^ 32

/-- JavaScript `ToUint32` as applied by a `Uint32Array` store to an
integer-valued operand: reduce modulo `2 ^ 32` into `[0, 2 ^ 32)`.
`Int` `%` is `Int.emod`, whose result is non-negative for a positive
modulus, matching the JavaScript definition. -/
def toUint32 (x : Int) : Nat := (x % (UINT32_MOD : Int)).toNat

/-- The JavaScript values that reach the buffer-validation code: a
`SharedArrayBuffer` of some `byteLength`, `undefined` (a missing
argument), or any other value (wrong kind, e.g. a plain `ArrayBuffer`). -/
inductive JSValue where
  | sab (byteLength : Nat)
  | undef
  | other
deriving DecidableEq

/-- The exceptions thrown by the kernel, identified by their `Error`
message text:

* `notSharedArrayBuffer` — `Expected a SharedArrayBuffer.`
  (thrown by every `#ensureSharedArrayBuffer` on a non-`SharedArrayBuffer`
  value, including `undefined`);
* `bufferTooSmall` — `Expected at least a 4-byte buffer.`
  (thrown by every `#ensureSharedArrayBuffer` when `byteLength < 4`);
* `notHeld` — `You can only unlock while holding the lock.`
  (thrown by `Mutex.unlock`);
* `rangeError` — the `RangeError` ECMAScript raises when a typed-array
  view is constructed over a whole buffer whose `byteLength` is not a
  multiple of `BYTES_PER_ELEMENT` (thrown by the
  `new Uint32Array(sharedBuffer)` / `new Int32Array(sharedBuffer)` step
  of every constructor; identified by its type, as the message text is
  engine-specific). -/
inductive JsError where
  | notSharedArrayBuffer
  | bufferTooSmall
  | notHeld
  | rangeError
deriving DecidableEq

/-- `#ensureSharedArrayBuffer(value)`, identical in `mutex.js` and all
three counter files: throw unless `value instanceof SharedArrayBuffer`,
then throw unless `value.byteLength >= 4` (`BYTES_PER_ELEMENT` of both
`Uint32Array` and `Int32Array` is 4). -/
def ensureSharedArrayBuffer (value : JSValue) : Except JsError Unit :=
  match value with
  | .sab byteLength =>
      if byteLength < 4 then .error .bufferTooSmall else .ok ()
  | _ => .error .notSharedArrayBuffer

/-- `new Uint32Array(sharedBuffer)` or `new Int32Array(sharedBuffer)`
over the whole buffer (both element types have `BYTES_PER_ELEMENT = 4`):
ECMAScript's typed-array construction from a buffer without an explicit
length throws a `RangeError` when `byteLength` is not a multiple of the
element size.  Every call site runs this only after a successful
`#ensureSharedArrayBuffer`, so the argument is a `SharedArrayBuffer`
there; the non-buffer branch is unreachable dead code (and
`new Uint32Array(undefined)` itself would not throw). -/
def newFullTypedArrayView (value : JSValue) : Except JsError Unit :=
  match value with
  | .sab byteLength =>
      if byteLength % 4 = 0 then .ok () else .error .rangeError
  | _ => .ok ()

/-- Whether an `Except` result is a success; used to state the
construction-validation property. -/
def exceptOk {ε α : Type} : Except ε α → Bool
  | .ok _ => true
  | .error _ => false

/-- The characterisation the claim gives of an acceptable buffer: a
`SharedArrayBuffer` whose `byteLength` is at least 4. -/
def isValidSAB : JSValue → Bool
  | .sab byteLength => 4 ≤ byteLength
  | _ => false

/-- The characterisation the constructors actually enforce: a
`SharedArrayBuffer` whose `byteLength` is at least 4 (the ensure-check)
and a multiple of 4 (the typed-array view construction). -/
def isConstructibleSAB : JSValue → Bool
  | .sab byteLength => 4 ≤ byteLength && byteLength % 4 == 0
  | _ => false

/-! ## Mutex (`mutex.js`) -/

/-- `Mutex.#LOCKED = 1`. -/
def Mutex.LOCKED : Int := 1

/-- `Mutex.#UNLOCKED = 0`. -/
def Mutex.UNLOCKED : Int := 0

/-- `Atomics.compareExchange(view, loc, expected, replacement)` on the
current slot value `s`: if `s = expected` the slot becomes `replacement`,
otherwise it is unchanged; the prior value `s` is returned either way.
Result: `(new slot value, returned prior value)`. -/
def Mutex.compareExchange (s expected replacement : Int) : Int × Int :=
  if s = expected then (replacement, s) else (s, s)

/-- `Mutex.#tryGetLock()` on current slot value `s`:
`compareExchange(slot, UNLOCKED, LOCKED)`, succeeding iff the prior value
was `UNLOCKED`.  Result: `(new slot value, acquired?)`. -/
def Mutex.tryGetLock (s : Int) : Int × Bool :=
  let r := Mutex.compareExchange s Mutex.UNLOCKED Mutex.LOCKED
  (r.1, r.2 == Mutex.UNLOCKED)

/-- `Atomics.wait(view, loc, LOCKED)` inside `Mutex.#waitIfLocked()`
blocks the calling agent iff the slot currently holds `LOCKED`; on any
other value it returns immediately (`not-equal`). -/
def Mutex.waitWouldBlock (s : Int) : Bool := s == Mutex.LOCKED

/-- Result of `Mutex.unlock()`: the slot value afterwards, the number of
agents passed to `Atomics.notify` (the source notifies
`NUM_AGENTS_TO_NOTIFY = 1` agent, and only after a successful
compare-exchange), and the exception thrown, if any. -/
structure UnlockResult where
  slotAfter : Int
  notified : Nat
  thrown : Option JsError
deriving DecidableEq

/-- `Mutex.unlock()` on current slot value `s`: `#tryUnlock()` is
`compareExchange(slot, LOCKED, UNLOCKED)`, succeeding iff the prior value
was `LOCKED`; on failure the error `notHeld` is thrown and
`#notifyAgents()` is never reached; on success `Atomics.notify(view, loc, 1)`
wakes at most one waiter. -/
def Mutex.unlock (s : Int) : UnlockResult :=
  let r := Mutex.compareExchange s Mutex.LOCKED Mutex.UNLOCKED
  if r.2 == Mutex.LOCKED then
    ⟨r.1, 1, none⟩
  else
    ⟨r.1, 0, some .notHeld⟩

/-- `Mutex.lock()` in a single-context (sequential) run, where no other
agent can change the slot and no notify can arrive: the first
`#tryGetLock()` either succeeds (slot was `UNLOCKED`, becomes `LOCKED`)
or the loop never terminates — `#waitIfLocked()` blocks forever when the
slot holds `LOCKED`, and the loop spins forever otherwise.  `none` models
the non-terminating case. -/
def Mutex.lockSeq (s : Int) : Option Int :=
  let r := Mutex.tryGetLock s
  if r.2 then some r.1 else none

/-- `Mutex.lock()` under interference: `obs` is the sequence of slot
values this agent observes at its successive `#tryGetLock()`
compare-exchange attempts (between attempts it sits in `#waitIfLocked()`,
released by a notify or a spurious wake, while other agents may rewrite
the slot).  Returns `some (i, f)` when the attempt with index `i` is the
first to succeed, `f` being the slot value its compare-exchange wrote;
`none` when no attempt in the observed window succeeds (the call has not
returned yet). -/
def Mutex.lockRun : List Int → Option (Nat × Int)
  | [] => none
  | s :: rest =>
      let r := Mutex.tryGetLock s
      if r.2 then some (0, r.1)
      else match Mutex.lockRun rest with
        | some (n, f) => some (n + 1, f)
        | none => none

/-- The `Mutex` constructor: `#ensureSharedArrayBuffer(sharedBuffer)`,
then `new Int32Array(sharedBuffer)` — the view construction throws a
`RangeError` when `byteLength` is not a multiple of 4; no effect on the
slot. -/
def Mutex.construct (sharedBuffer : JSValue) : Except JsError Unit :=
  match ensureSharedArrayBuffer sharedBuffer with
  | .error e => .error e
  | .ok _ => newFullTypedArrayView sharedBuffer

/-! ## Counter example 1 (`counter-example1.js`) — naive -/

/-- The `value` getter: a plain (non-atomic) read of slot 0 of the
`Uint32Array` view. -/
def Counter1.value (c : Nat) : Nat := c

/-- `increment(value)`: `this.#bufferView[0] += value` — read, add, and
store back through the `Uint32Array` view, which wraps modulo `2 ^ 32`. -/
def Counter1.increment (d : Int) (c : Nat) : Nat := toUint32 ((c : Int) + d)

/-- `decrement(value)`: `this.increment(-value)`. -/
def Counter1.decrement (d : Int) (c : Nat) : Nat := Counter1.increment (-d) c

/-- The `Counter` constructor of example 1: `#ensureSharedArrayBuffer`,
then `new Uint32Array(sharedBuffer)` — the view construction throws a
`RangeError` when `byteLength` is not a multiple of 4; no further effect
on the slot. -/
def Counter1.construct (sharedBuffer : JSValue) : Except JsError Unit :=
  match ensureSharedArrayBuffer sharedBuffer with
  | .error e => .error e
  | .ok _ => newFullTypedArrayView sharedBuffer

/-! ## Counter example 2 (`counter-example2.js`) — atomic -/

/-- The `value` getter: `Atomics.load(view, 0)`. -/
def Counter2.value (c : Nat) : Nat := c

/-- `increment(value)`: `Atomics.add(view, 0, value)` — the slot becomes
`(old + value) mod 2 ^ 32`, in one indivisible step. -/
def Counter2.increment (d : Int) (c : Nat) : Nat := toUint32 ((c : Int) + d)

/-- `decrement(value)`: `Atomics.sub(view, 0, value)` — the slot becomes
`(old - value) mod 2 ^ 32`, in one indivisible step. -/
def Counter2.decrement (d : Int) (c : Nat) : Nat := toUint32 ((c : Int) - d)

/-- The `Counter` constructor of example 2: same steps as example 1
(ensure-check, then the `Uint32Array` view with its `RangeError`). -/
def Counter2.construct (sharedBuffer : JSValue) : Except JsError Unit :=
  match ensureSharedArrayBuffer sharedBuffer with
  | .error e => .error e
  | .ok _ => newFullTypedArrayView sharedBuffer

/-! ## Counter example 3 (`counter-example3.js`) — mutex-guarded -/

/-- The two shared slots a guarded counter touches: the counter slot
(`Uint32Array` over the counter buffer) and the mutex's lock slot
(`Int32Array` over the mutex buffer). -/
structure GuardedHeap where
  counterSlot : Nat
  lockSlot : Int
deriving DecidableEq

/-- The `Counter` constructor of example 3:
`#ensureSharedArrayBuffer(sharedCounterBuffer)`, then
`new Uint32Array(sharedCounterBuffer)` (with its `RangeError` on a
byte length that is not a multiple of 4), then
`new Mutex(sharedMutexBuffer)`, whose own constructor runs the same two
steps on the mutex buffer. -/
def Counter3.construct (sharedCounterBuffer sharedMutexBuffer : JSValue) :
    Except JsError Unit :=
  match ensureSharedArrayBuffer sharedCounterBuffer with
  | .error e => .error e
  | .ok _ =>
      match newFullTypedArrayView sharedCounterBuffer with
      | .error e => .error e
      | .ok _ => Mutex.construct sharedMutexBuffer

/-- Example 3 `increment(value)` in a single-context run:
`mutex.lock()` (diverges, `none`, unless the lock slot is `UNLOCKED`),
then the plain `this.#bufferView[0] += value`, then `mutex.unlock()`.
Returns the heap afterwards and the exception `unlock` threw, if any
(the counter store precedes `unlock`, so it persists even on a throw). -/
def Counter3.increment (d : Int) (h : GuardedHeap) :
    Option (GuardedHeap × Option JsError) :=
  match Mutex.lockSeq h.lockSlot with
  | none => none
  | some l1 =>
      let c1 := toUint32 ((h.counterSlot : Int) + d)
      let u := Mutex.unlock l1
      some (⟨c1, u.slotAfter⟩, u.thrown)

/-- Example 3 `decrement(value)`: `this.increment(-value)`. -/
def Counter3.decrement (d : Int) (h : GuardedHeap) :
    Option (GuardedHeap × Option JsError) :=
  Counter3.increment (-d) h

/-- Example 3 `value` getter in a single-context run: `mutex.lock()`,
plain read of the counter slot, `mutex.unlock()`, return the value read.
Result: `(value read, heap afterwards, exception thrown)`. -/
def Counter3.valueOp (h : GuardedHeap) :
    Option (Nat × GuardedHeap × Option JsError) :=
  match Mutex.lockSeq h.lockSlot with
  | none => none
  | some l1 =>
      let v := h.counterSlot
      let u := Mutex.unlock l1
      some (v, ⟨h.counterSlot, u.slotAfter⟩, u.thrown)

/-! ## The worker task (`counting-worker.js`) -/

/-- The `data` field of a message from the main thread (`main.js` sends
`{operation, sharedCounterBuffer, sharedMutexBuffer}`; the worker reads
only `operation` and `sharedCounterBuffer`). -/
structure EventData where
  operation : String
  sharedCounterBuffer : JSValue
  sharedMutexBuffer : JSValue
deriving DecidableEq

/-- The worker's completion message: `postMessage({done: true, count})`. -/
structure Report where
  done : Bool
  count : Nat
deriving DecidableEq

/-- Observable outcome of one `handleMessageFromMain` call for the
single-buffer counters: the counter slot afterwards, the report posted
(if any), the number of counter increment/decrement calls performed, and
the exception that escaped (if any). -/
structure WorkerOutcome where
  counterSlot : Nat
  report : Option Report
  counterCalls : Nat
  thrown : Option JsError
deriving DecidableEq

/-- The worker's update loop
`let numUpdates = 100_000; while (numUpdates-- > 0) { counter.op(); }`
over a pure slot transformer `f`: returns the final slot value and the
number of calls made. -/
def countLoop (f : Nat → Nat) : Nat → Nat → Nat × Nat
  | 0, c => (c, 0)
  | n + 1, c =>
      let r := countLoop f n (f c)
      (r.1, r.2 + 1)

/-- `handleMessageFromMain({data})` with the example-1 (naive) `Counter`
selected by `counter.js` (the `src/atomics` re-export file imports
`counter-example1.js`): construct the counter over
`data.sharedCounterBuffer` (before the `switch`, so a bad buffer throws
for every tag), then 100,000 `increment()` or `decrement()` calls
selected by `data.operation` (any other tag: `return`, no message
posted), then post `{done: true, count: counter.value}`. -/
def handleMessageFromMain1 (data : EventData) (c : Nat) : WorkerOutcome :=
  match Counter1.construct data.sharedCounterBuffer with
  | .error e => ⟨c, none, 0, some e⟩
  | .ok _ =>
      match data.operation with
      | "increment" =>
          let r := countLoop (Counter1.increment 1) 100000 c
          ⟨r.1, some ⟨true, Counter1.value r.1⟩, r.2, none⟩
      | "decrement" =>
          let r := countLoop (Counter1.decrement 1) 100000 c
          ⟨r.1, some ⟨true, Counter1.value r.1⟩, r.2, none⟩
      | _ => ⟨c, none, 0, none⟩

/-- `handleMessageFromMain({data})` with the example-2 (atomic) `Counter`
selected instead (the alternative import the re-export file documents);
identical task loop, atomic counter operations. -/
def handleMessageFromMain2 (data : EventData) (c : Nat) : WorkerOutcome :=
  match Counter2.construct data.sharedCounterBuffer with
  | .error e => ⟨c, none, 0, some e⟩
  | .ok _ =>
      match data.operation with
      | "increment" =>
          let r := countLoop (Counter2.increment 1) 100000 c
          ⟨r.1, some ⟨true, Counter2.value r.1⟩, r.2, none⟩
      | "decrement" =>
          let r := countLoop (Counter2.decrement 1) 100000 c
          ⟨r.1, some ⟨true, Counter2.value r.1⟩, r.2, none⟩
      | _ => ⟨c, none, 0, none⟩

/-- Outcome of one `handleMessageFromMain` call for the guarded counter:
the two-slot heap afterwards, the report posted, the number of counter
calls, and the exception that escaped.  `none` models divergence
(a `lock()` that never returns). -/
structure WorkerOutcome3 where
  heap : GuardedHeap
  report : Option Report
  counterCalls : Nat
  thrown : Option JsError
deriving DecidableEq

/-- The worker's update loop over a guarded-counter operation: stops at
the first divergence or thrown exception, otherwise threads the heap
through `n` calls and counts them. -/
def countLoop3 (f : GuardedHeap → Option (GuardedHeap × Option JsError)) :
    Nat → GuardedHeap → Option (GuardedHeap × Nat × Option JsError)
  | 0, h => some (h, 0, none)
  | n + 1, h =>
      match f h with
      | none => none
      | some (h1, some e) => some (h1, 1, some e)
      | some (h1, none) =>
          match countLoop3 f n h1 with
          | none => none
          | some (h2, k, err) => some (h2, k + 1, err)

/-- `handleMessageFromMain({data})` with the example-3 (guarded)
`Counter` selected (the re-export variant that imports
`counter-example3.js`): the worker still calls
`new Counter(data.sharedCounterBuffer)` with a single argument, so the
constructor's `sharedMutexBuffer` parameter is `undefined`. -/
def handleMessageFromMain3 (data : EventData) (h : GuardedHeap) :
    Option WorkerOutcome3 :=
  match Counter3.construct data.sharedCounterBuffer .undef with
  | .error e => some ⟨h, none, 0, some e⟩
  | .ok _ =>
      let finish := fun (res : Option (GuardedHeap × Nat × Option JsError)) =>
        match res with
        | none => none
        | some (h1, k, some e) => some (⟨h1, none, k, some e⟩ : WorkerOutcome3)
        | some (h1, k, none) =>
            match Counter3.valueOp h1 with
            | none => none
            | some (_, h2, some e) => some ⟨h2, none, k, some e⟩
            | some (v, h2, none) => some ⟨h2, some ⟨true, v⟩, k, none⟩
      match data.operation with
      | "increment" => finish (countLoop3 (Counter3.increment 1) 100000 h)
      | "decrement" => finish (countLoop3 (Counter3.decrement 1) 100000 h)
      | _ => some ⟨h, none, 0, none⟩

/-! ## Parallel atomic increments (`main.js` + `counter-example2.js`) -/

/-- A run of `N` parallel workers hammering one atomic counter:
`Atomics.add` is a single indivisible, sequentially consistent
read-modify-write, so an interleaving of the workers' increment calls is
exactly an ordering of them.  `sched` lists, in execution order, which
worker performs each `increment(1)`; the fold applies them to the slot. -/
def runSchedule {N : Nat} (sched : List (Fin N)) (c : Nat) : Nat :=
  sched.foldl (fun acc _ => Counter2.increment 1 acc) c

/-- `sched` is an interleaving of `N` workers each performing exactly `K`
atomic increments: every worker contributes exactly `K` entries. -/
def isInterleaving {N : Nat} (K : Nat) (sched : List (Fin N)) : Prop :=
  ∀ w : Fin N, sched.count w = K

instance {N K : Nat} (sched : List (Fin N)) :
    Decidable (isInterleaving K sched) := by
  unfold isInterleaving; infer_instance

/-! ## Helper lemmas -/

lemma UINT32_MOD_eq : UINT32_MOD = 4294967296 := by norm_num [UINT32_MOD]

lemma toUint32_lt (x : Int) : toUint32 x < UINT32_MOD := by
  simp only [toUint32, UINT32_MOD_eq]
  omega

lemma toUint32_natCast (c : Nat) (hc : c < UINT32_MOD) : toUint32 c = c := by
  simp only [toUint32, UINT32_MOD_eq] at *
  omega

lemma incr_one_eq_mod (c : Nat) :
    Counter1.increment 1 c = (c + 1) % UINT32_MOD := by
  simp only [Counter1.increment, toUint32, UINT32_MOD_eq]
  omega

lemma decr_one_eq (c : Nat) :
    Counter1.decrement 1 c = toUint32 ((c : Int) - 1) := by
  simp only [Counter1.decrement, Counter1.increment, toUint32, UINT32_MOD_eq]
  omega

lemma toUint32_absorb_add (x y : Int) :
    toUint32 ((toUint32 x : Int) + y) = toUint32 (x + y) := by
  simp only [toUint32, UINT32_MOD_eq]
  omega

lemma countLoop_incr1 (n : Nat) :
    ∀ c : Nat, c < UINT32_MOD →
      countLoop (Counter1.increment 1) n c = ((c + n) % UINT32_MOD, n) := by
  induction n with
  | zero =>
      intro c hc
      simp [countLoop, Nat.mod_eq_of_lt hc]
  | succ n ih =>
      intro c hc
      have hlt : (c + 1) % UINT32_MOD < UINT32_MOD :=
        Nat.mod_lt _ (by norm_num [UINT32_MOD_eq])
      simp only [countLoop, incr_one_eq_mod, ih _ hlt]
      refine Prod.ext ?_ rfl
      show ((c + 1) % UINT32_MOD + n) % UINT32_MOD = (c + (n + 1)) % UINT32_MOD
      rw [Nat.mod_add_mod]
      ring_nf

lemma countLoop_decr1 (n : Nat) :
    ∀ c : Nat, c < UINT32_MOD →
      countLoop (Counter1.decrement 1) n c = (toUint32 ((c : Int) - n), n) := by
  induction n with
  | zero =>
      intro c hc
      simp [countLoop, toUint32_natCast c hc]
  | succ n ih =>
      intro c hc
      have hstep := decr_one_eq c
      have hlt : Counter1.decrement 1 c < UINT32_MOD := by
        rw [hstep]; exact toUint32_lt _
      simp only [countLoop, ih _ hlt]
      refine Prod.ext ?_ rfl
      show toUint32 ((Counter1.decrement 1 c : Int) - n) = toUint32 ((c : Int) - (n + 1))
      rw [hstep]
      simp only [toUint32, UINT32_MOD_eq]
      omega

lemma counter2_incr_eq_counter1 : Counter2.increment = Counter1.increment := rfl

lemma counter2_decr_one_eq_counter1 :
    Counter2.decrement 1 = Counter1.decrement 1 := by
  funext c
  simp only [Counter2.decrement, Counter1.decrement, Counter1.increment]
  rw [Int.sub_eq_add_neg]

/-! ## Claim theorems -/

/-- C3: `unlock()` on a Mutex whose lock slot does not hold `LOCKED`
throws `NotHeld` (not silently ignored), leaves the slot as it was — in
particular UNLOCKED when it was UNLOCKED — and notifies no waiter;
`unlock()` on a slot holding `LOCKED` sets it to `UNLOCKED` and notifies
exactly one blocked waiter (single-notify, not broadcast). -/
theorem mutex_unlock_contract (s : Int) :
    (s ≠ Mutex.LOCKED →
      Mutex.unlock s = ⟨s, 0, some JsError.notHeld⟩)
    ∧ (s = Mutex.UNLOCKED → (Mutex.unlock s).slotAfter = Mutex.UNLOCKED)
    ∧ Mutex.unlock Mutex.LOCKED = ⟨Mutex.UNLOCKED, 1, none⟩ := by
  refine ⟨?_, ?_, by decide⟩
  · intro hs
    have hs2 : ¬ (s = (1 : Int)) := fun h => hs (by simpa [Mutex.LOCKED] using h)
    unfold Mutex.unlock Mutex.compareExchange
    simp [Mutex.LOCKED, Mutex.UNLOCKED, hs2]
  · intro hs
    subst hs
    decide

theorem mutex_unlock_contract_witness :
    Mutex.unlock 0 = ⟨0, 0, some JsError.notHeld⟩
    ∧ Mutex.unlock Mutex.LOCKED = ⟨Mutex.UNLOCKED, 1, none⟩ :=
  ⟨(mutex_unlock_contract 0).1 (by decide), (mutex_unlock_contract 0).2.2⟩

/-- C4 (amended): constructing a `Mutex` or any of the three `Counter`
classes succeeds exactly when every buffer argument is a
`SharedArrayBuffer` whose `byteLength` is at least 4 and a multiple of 4;
otherwise the constructor throws — `InvalidBuffer` (wrong kind or too
small) from the ensure-check, or the typed-array view's `RangeError` on a
length that is not a multiple of 4 — and no partially-usable object is
produced. -/
theorem construction_validation (v m : JSValue) :
    exceptOk (Mutex.construct v) = isConstructibleSAB v
    ∧ exceptOk (Counter1.construct v) = isConstructibleSAB v
    ∧ exceptOk (Counter2.construct v) = isConstructibleSAB v
    ∧ exceptOk (Counter3.construct v m)
        = (isConstructibleSAB v && isConstructibleSAB m) := by
  have h : ∀ w : JSValue,
      exceptOk (Counter1.construct w) = isConstructibleSAB w := by
    intro w
    cases w with
    | sab n =>
        simp only [Counter1.construct, ensureSharedArrayBuffer,
          newFullTypedArrayView, isConstructibleSAB]
        by_cases h4 : n < 4
        · have h4' : ¬ 4 ≤ n := by omega
          simp [h4, h4', exceptOk]
        · have h4' : 4 ≤ n := by omega
          by_cases hm : n % 4 = 0
          · simp [h4, h4', hm, exceptOk]
          · simp [h4, h4', hm, exceptOk]
    | undef => rfl
    | other => rfl
  have hM : ∀ w : JSValue,
      exceptOk (Mutex.construct w) = isConstructibleSAB w := h
  have h2 : ∀ w : JSValue,
      exceptOk (Counter2.construct w) = isConstructibleSAB w := h
  refine ⟨hM v, h v, h2 v, ?_⟩
  cases hev : ensureSharedArrayBuffer v with
  | error e =>
      have hv0 : isConstructibleSAB v = false := by
        have hval := h v
        simp only [Counter1.construct, hev, exceptOk] at hval
        exact hval.symm
      simp only [Counter3.construct, hev, exceptOk, hv0]
      simp
  | ok u =>
      cases u
      cases hvw : newFullTypedArrayView v with
      | error e =>
          have hv0 : isConstructibleSAB v = false := by
            have hval := h v
            simp only [Counter1.construct, hev, hvw, exceptOk] at hval
            exact hval.symm
          simp only [Counter3.construct, hev, hvw, exceptOk, hv0]
          simp
      | ok u2 =>
          cases u2
          have hv1 : isConstructibleSAB v = true := by
            have hval := h v
            simp only [Counter1.construct, hev, hvw, exceptOk] at hval
            exact hval.symm
          simp only [Counter3.construct, hev, hvw, hv1, hM m]
          simp

/-- C4 (counterexample to the claim as stated): a `SharedArrayBuffer` of
`byteLength = 5` meets the claim's success condition (it is a
`SharedArrayBuffer` and `5 >= 4`), yet every constructor throws: after
the ensure-check passes, the typed-array view construction raises a
`RangeError` because 5 is not a multiple of the 4-byte element size. -/
theorem construction_at_5_throws :
    isValidSAB (JSValue.sab 5) = true
    ∧ exceptOk (Mutex.construct (JSValue.sab 5)) = false
    ∧ exceptOk (Counter1.construct (JSValue.sab 5)) = false
    ∧ exceptOk (Counter2.construct (JSValue.sab 5)) = false
    ∧ exceptOk (Counter3.construct (JSValue.sab 5) (JSValue.sab 4)) = false
    ∧ Counter1.construct (JSValue.sab 5) = .error JsError.rangeError :=
  ⟨rfl, rfl, rfl, rfl, rfl, rfl⟩

/-- C5: in every counter strategy the counter slot is an unsigned 32-bit
integer that wraps modulo `2 ^ 32`: from current value `c`,
`decrement(d)` leaves the slot holding `(c - d) mod 2 ^ 32` (for the
guarded counter, in a sequential run starting with the lock free), and in
particular decrementing `1` from `0` wraps to `2 ^ 32 - 1` instead of
failing. -/
theorem counter_decrement_wraps_mod (c : Nat) (d : Int) :
    Counter1.decrement d c = toUint32 ((c : Int) - d)
    ∧ Counter2.decrement d c = toUint32 ((c : Int) - d)
    ∧ Counter3.decrement d ⟨c, Mutex.UNLOCKED⟩ =
        some (⟨toUint32 ((c : Int) - d), Mutex.UNLOCKED⟩, none)
    ∧ Counter2.decrement 1 0 = UINT32_MOD - 1 := by
  refine ⟨?_, rfl, ?_, ?_⟩
  · simp only [Counter1.decrement, Counter1.increment]
    rw [Int.sub_eq_add_neg]
  · simp only [Counter3.decrement, Counter3.increment, Mutex.lockSeq,
      Mutex.tryGetLock, Mutex.compareExchange, Mutex.UNLOCKED, Mutex.LOCKED,
      Mutex.unlock]
    rw [Int.sub_eq_add_neg]
    rfl
  · simp only [Counter2.decrement, toUint32, UINT32_MOD_eq]
    decide

/-- C6: in every counter strategy `decrement(d)` has exactly the effect
of `increment(-d)`: the naive and guarded counters delegate, and the
atomic counter's `Atomics.sub` by `d` equals `Atomics.add` by `-d`
modulo `2 ^ 32`. -/
theorem counter_decrement_eq_increment_neg (c : Nat) (d : Int)
    (h : GuardedHeap) :
    Counter1.decrement d c = Counter1.increment (-d) c
    ∧ Counter2.decrement d c = Counter2.increment (-d) c
    ∧ Counter3.decrement d h = Counter3.increment (-d) h := by
  refine ⟨rfl, ?_, rfl⟩
  simp only [Counter2.decrement, Counter2.increment]
  rw [Int.sub_eq_add_neg]

/-- C7: a `lock()` call that returns did so because its own
compare-and-swap observed `UNLOCKED` and wrote `LOCKED` (never leaving
the slot `UNLOCKED` on return); every earlier attempt — including ones
forced by spurious wakes — observed a non-`UNLOCKED` slot and looped back
to re-attempt the compare-and-swap; and the intervening `Atomics.wait`
blocks exactly while the slot holds `LOCKED`. -/
theorem lock_returns_only_after_cas (obs : List Int) (i : Nat) (f : Int)
    (hrun : Mutex.lockRun obs = some (i, f)) :
    f = Mutex.LOCKED
    ∧ obs[i]? = some Mutex.UNLOCKED
    ∧ (∀ j, j < i → ∀ v, obs[j]? = some v → v ≠ Mutex.UNLOCKED)
    ∧ (∀ s, Mutex.waitWouldBlock s = true ↔ s = Mutex.LOCKED) := by
  have hwait : ∀ s : Int, Mutex.waitWouldBlock s = true ↔ s = Mutex.LOCKED := by
    intro s
    simp [Mutex.waitWouldBlock]
  induction obs generalizing i with
  | nil => simp [Mutex.lockRun] at hrun
  | cons s rest ih =>
      by_cases hs : s = Mutex.UNLOCKED
      · subst hs
        have : Mutex.lockRun (Mutex.UNLOCKED :: rest) =
            some (0, Mutex.LOCKED) := by
          simp [Mutex.lockRun, Mutex.tryGetLock, Mutex.compareExchange,
            Mutex.UNLOCKED, Mutex.LOCKED]
        rw [this] at hrun
        obtain ⟨hi, hf⟩ : 0 = i ∧ Mutex.LOCKED = f := by
          simpa using hrun
        subst hi
        exact ⟨hf.symm, by simp, by omega, hwait⟩
      · have hs0 : ¬ (s = (0 : Int)) := by simpa [Mutex.UNLOCKED] using hs
        have hstep : Mutex.lockRun (s :: rest) =
            match Mutex.lockRun rest with
            | some (n, f) => some (n + 1, f)
            | none => none := by
          simp [Mutex.lockRun, Mutex.tryGetLock, Mutex.compareExchange,
            Mutex.UNLOCKED, Mutex.LOCKED, hs0]
        rw [hstep] at hrun
        cases hrest : Mutex.lockRun rest with
        | none => rw [hrest] at hrun; simp at hrun
        | some p =>
            obtain ⟨n, f0⟩ := p
            rw [hrest] at hrun
            obtain ⟨hi, hf⟩ : n + 1 = i ∧ f0 = f := by
              simpa using hrun
            subst hf
            obtain ⟨h1, h2, h3, _⟩ := ih n hrest
            subst hi
            refine ⟨h1, by simpa using h2, ?_, hwait⟩
            intro j hj v hv
            cases j with
            | zero =>
                simp at hv
                subst hv
                exact hs
            | succ j =>
                have hj2 : j < n := by omega
                have : rest[j]? = some v := by simpa using hv
                exact h3 j hj2 v this

theorem lock_returns_only_after_cas_witness :
    (1 : Int) = Mutex.LOCKED
    ∧ ([1, 2, 0] : List Int)[2]? = some Mutex.UNLOCKED := by
  have h := lock_returns_only_after_cas [1, 2, 0] 2 1 (by decide)
  exact ⟨h.1, h.2.1⟩

/-- C9: in a sequential run starting with the lock slot `UNLOCKED`,
each guarded-counter operation acquires the mutex, performs its plain
read or read-modify-write, throws nothing, and returns with the lock
slot restored to `UNLOCKED`; and the lock-slot transitions of
`Mutex.lock`/`Mutex.unlock` — the only writes to that slot — map
{UNLOCKED, LOCKED} into {UNLOCKED, LOCKED}. -/
theorem guarded_ops_restore_unlocked (c : Nat) (d : Int) (s : Int) :
    Counter3.valueOp ⟨c, Mutex.UNLOCKED⟩ =
      some (c, ⟨c, Mutex.UNLOCKED⟩, none)
    ∧ Counter3.increment d ⟨c, Mutex.UNLOCKED⟩ =
      some (⟨toUint32 ((c : Int) + d), Mutex.UNLOCKED⟩, none)
    ∧ Counter3.decrement d ⟨c, Mutex.UNLOCKED⟩ =
      some (⟨toUint32 ((c : Int) - d), Mutex.UNLOCKED⟩, none)
    ∧ (s = Mutex.UNLOCKED ∨ s = Mutex.LOCKED →
        (∀ l, Mutex.lockSeq s = some l →
          l = Mutex.UNLOCKED ∨ l = Mutex.LOCKED)
        ∧ ((Mutex.unlock s).slotAfter = Mutex.UNLOCKED
            ∨ (Mutex.unlock s).slotAfter = Mutex.LOCKED)) := by
  refine ⟨rfl, rfl, (counter_decrement_wraps_mod c d).2.2.1, ?_⟩
  rintro (hs | hs) <;> subst hs
  · refine ⟨fun l hl => ?_, Or.inl (by decide)⟩
    have hseq : Mutex.lockSeq Mutex.UNLOCKED = some Mutex.LOCKED := by decide
    rw [hseq] at hl
    exact Or.inr (Option.some.inj hl).symm
  · exact ⟨fun l hl => by simp [Mutex.lockSeq, Mutex.tryGetLock,
      Mutex.compareExchange, Mutex.LOCKED, Mutex.UNLOCKED] at hl,
      Or.inl (by decide)⟩

theorem guarded_ops_restore_unlocked_witness :
    Counter3.increment 2 ⟨5, Mutex.UNLOCKED⟩ =
      some (⟨toUint32 ((5 : Int) + 2), Mutex.UNLOCKED⟩, none)
    ∧ ((Mutex.unlock 0).slotAfter = Mutex.UNLOCKED
        ∨ (Mutex.unlock 0).slotAfter = Mutex.LOCKED) := by
  have h := guarded_ops_restore_unlocked 5 2 0
  exact ⟨h.2.1, (h.2.2.2 (Or.inl rfl)).2⟩

/-- C1: on a message whose tag is `increment` or `decrement`, over a
valid shared counter buffer (one the `Counter` constructor accepts: the
ensure-check and the `Uint32Array` view construction both succeed), the
worker task performs exactly 100,000 calls of the selected operation
with delta 1 and reports `{done: true, count}` where `count` is the slot
value read after the loop; sequentially, from counter value `c`, an
`increment` message reports `(c + 100000) mod 2 ^ 32` (shown for the
worker bound to either single-buffer counter strategy). -/
theorem worker_task_counts (data : EventData) (c : Nat)
    (hc : c < UINT32_MOD)
    (hok : ensureSharedArrayBuffer data.sharedCounterBuffer = Except.ok ())
    (hview : newFullTypedArrayView data.sharedCounterBuffer = Except.ok ()) :
    (data.operation = "increment" →
      handleMessageFromMain1 data c =
        ⟨(c + 100000) % UINT32_MOD, some ⟨true, (c + 100000) % UINT32_MOD⟩,
          100000, none⟩
      ∧ handleMessageFromMain2 data c =
        ⟨(c + 100000) % UINT32_MOD, some ⟨true, (c + 100000) % UINT32_MOD⟩,
          100000, none⟩)
    ∧ (data.operation = "decrement" →
      handleMessageFromMain1 data c =
        ⟨toUint32 ((c : Int) - 100000),
          some ⟨true, toUint32 ((c : Int) - 100000)⟩, 100000, none⟩
      ∧ handleMessageFromMain2 data c =
        ⟨toUint32 ((c : Int) - 100000),
          some ⟨true, toUint32 ((c : Int) - 100000)⟩, 100000, none⟩) := by
  obtain ⟨op, cb, mb⟩ := data
  simp only at hok hview
  constructor
  · intro hop
    simp only at hop
    subst hop
    constructor
    · simp only [handleMessageFromMain1, Counter1.construct, hok, hview]
      rw [countLoop_incr1 100000 c hc]
      rfl
    · simp only [handleMessageFromMain2, Counter2.construct, hok, hview,
        counter2_incr_eq_counter1]
      rw [countLoop_incr1 100000 c hc]
      rfl
  · intro hop
    simp only at hop
    subst hop
    constructor
    · simp only [handleMessageFromMain1, Counter1.construct, hok, hview]
      rw [countLoop_decr1 100000 c hc]
      rfl
    · simp only [handleMessageFromMain2, Counter2.construct, hok, hview,
        counter2_decr_one_eq_counter1]
      rw [countLoop_decr1 100000 c hc]
      rfl

theorem worker_task_counts_witness :
    (0 : Nat) < UINT32_MOD
    ∧ ensureSharedArrayBuffer (JSValue.sab 4) = Except.ok ()
    ∧ newFullTypedArrayView (JSValue.sab 4) = Except.ok ()
    ∧ handleMessageFromMain1 ⟨"increment", JSValue.sab 4, JSValue.undef⟩ 0 =
      ⟨(0 + 100000) % UINT32_MOD, some ⟨true, (0 + 100000) % UINT32_MOD⟩,
        100000, none⟩ := by
  refine ⟨by norm_num [UINT32_MOD_eq], rfl, rfl, ?_⟩
  exact ((worker_task_counts ⟨"increment", JSValue.sab 4, JSValue.undef⟩ 0
    (by norm_num [UINT32_MOD_eq]) rfl rfl).1 rfl).1

/-- C2: when the guarded-counter strategy (example 3) is the selected
`Counter` export, the worker constructs it from only the message's
counter buffer, leaving the constructor's mutex-buffer parameter
`undefined`; every incoming message therefore throws during construction
— before any counter update or report — and for a valid counter buffer
(one whose ensure-check and `Uint32Array` view construction succeed) the
exception is exactly the Mutex constructor's
`Expected a SharedArrayBuffer.` error on `undefined`. -/
theorem guarded_worker_always_throws (data : EventData) (h : GuardedHeap) :
    (∃ e, handleMessageFromMain3 data h = some ⟨h, none, 0, some e⟩)
    ∧ (ensureSharedArrayBuffer data.sharedCounterBuffer = Except.ok () →
        newFullTypedArrayView data.sharedCounterBuffer = Except.ok () →
        handleMessageFromMain3 data h =
          some ⟨h, none, 0, some JsError.notSharedArrayBuffer⟩) := by
  obtain ⟨op, cb, mb⟩ := data
  cases hcb : ensureSharedArrayBuffer cb with
  | error e =>
      have hcon : Counter3.construct cb .undef = .error e := by
        simp [Counter3.construct, hcb]
      refine ⟨⟨e, by simp [handleMessageFromMain3, hcon]⟩, ?_⟩
      intro hok
      simp at hok
  | ok u =>
      cases u
      cases hvw : newFullTypedArrayView cb with
      | error e =>
          have hcon : Counter3.construct cb .undef = .error e := by
            simp [Counter3.construct, hcb, hvw]
          refine ⟨⟨e, by simp [handleMessageFromMain3, hcon]⟩, ?_⟩
          intro hok hview
          simp at hview
      | ok u2 =>
          cases u2
          have hcon : Counter3.construct cb .undef =
              .error JsError.notSharedArrayBuffer := by
            unfold Counter3.construct
            rw [hcb, hvw]
            rfl
          exact ⟨⟨JsError.notSharedArrayBuffer,
              by simp [handleMessageFromMain3, hcon]⟩,
            fun _ _ => by simp [handleMessageFromMain3, hcon]⟩

theorem guarded_worker_always_throws_witness :
    handleMessageFromMain3 ⟨"increment", JSValue.sab 4, JSValue.undef⟩
      ⟨0, 0⟩ =
      some ⟨⟨0, 0⟩, none, 0, some JsError.notSharedArrayBuffer⟩ :=
  (guarded_worker_always_throws ⟨"increment", JSValue.sab 4, JSValue.undef⟩
    ⟨0, 0⟩).2 rfl rfl

/-- C8: a message whose operation tag is neither `increment` nor
`decrement` performs no counter calls, leaves the counter slot
unchanged, and posts no response; over a valid buffer (one the `Counter`
constructor accepts) it is a fully silent no-op (no exception either).
Shown for the worker bound to either single-buffer counter strategy. -/
theorem unknown_tag_silent_noop (data : EventData) (c : Nat)
    (h1 : data.operation ≠ "increment") (h2 : data.operation ≠ "decrement") :
    (handleMessageFromMain1 data c).counterSlot = c
    ∧ (handleMessageFromMain1 data c).report = none
    ∧ (handleMessageFromMain1 data c).counterCalls = 0
    ∧ (handleMessageFromMain2 data c).counterSlot = c
    ∧ (handleMessageFromMain2 data c).report = none
    ∧ (handleMessageFromMain2 data c).counterCalls = 0
    ∧ (ensureSharedArrayBuffer data.sharedCounterBuffer = Except.ok () →
        newFullTypedArrayView data.sharedCounterBuffer = Except.ok () →
        handleMessageFromMain1 data c = ⟨c, none, 0, none⟩
        ∧ handleMessageFromMain2 data c = ⟨c, none, 0, none⟩) := by
  obtain ⟨op, cb, mb⟩ := data
  cases hcb : ensureSharedArrayBuffer cb with
  | error e =>
      have e1 : handleMessageFromMain1 ⟨op, cb, mb⟩ c = ⟨c, none, 0, some e⟩ := by
        simp [handleMessageFromMain1, Counter1.construct, hcb]
      have e2 : handleMessageFromMain2 ⟨op, cb, mb⟩ c = ⟨c, none, 0, some e⟩ := by
        simp [handleMessageFromMain2, Counter2.construct, hcb]
      rw [e1, e2]
      refine ⟨rfl, rfl, rfl, rfl, rfl, rfl, ?_⟩
      intro hok
      simp at hok
  | ok u =>
      cases u
      cases hvw : newFullTypedArrayView cb with
      | error e =>
          have e1 : handleMessageFromMain1 ⟨op, cb, mb⟩ c =
              ⟨c, none, 0, some e⟩ := by
            simp [handleMessageFromMain1, Counter1.construct, hcb, hvw]
          have e2 : handleMessageFromMain2 ⟨op, cb, mb⟩ c =
              ⟨c, none, 0, some e⟩ := by
            simp [handleMessageFromMain2, Counter2.construct, hcb, hvw]
          rw [e1, e2]
          refine ⟨rfl, rfl, rfl, rfl, rfl, rfl, ?_⟩
          intro hok hview
          simp at hview
      | ok u2 =>
          cases u2
          have e1 : handleMessageFromMain1 ⟨op, cb, mb⟩ c =
              ⟨c, none, 0, none⟩ := by
            simp only [handleMessageFromMain1, Counter1.construct, hcb, hvw]
          have e2 : handleMessageFromMain2 ⟨op, cb, mb⟩ c =
              ⟨c, none, 0, none⟩ := by
            simp only [handleMessageFromMain2, Counter2.construct, hcb, hvw]
          rw [e1, e2]
          exact ⟨rfl, rfl, rfl, rfl, rfl, rfl, fun _ _ => ⟨rfl, rfl⟩⟩

theorem unknown_tag_silent_noop_witness :
    handleMessageFromMain1 ⟨"reset", JSValue.sab 4, JSValue.undef⟩ 7 =
      ⟨7, none, 0, none⟩
    ∧ handleMessageFromMain2 ⟨"reset", JSValue.sab 4, JSValue.undef⟩ 7 =
      ⟨7, none, 0, none⟩ :=
  (unknown_tag_silent_noop ⟨"reset", JSValue.sab 4, JSValue.undef⟩ 7
    (by decide) (by decide)).2.2.2.2.2.2 rfl rfl

lemma runSchedule_eq_mod {N : Nat} (sched : List (Fin N)) :
    ∀ c : Nat, c < UINT32_MOD →
      runSchedule sched c = (c + sched.length) % UINT32_MOD := by
  induction sched with
  | nil =>
      intro c hc
      simp [runSchedule, Nat.mod_eq_of_lt hc]
  | cons a l ih =>
      intro c hc
      have hstep : Counter2.increment 1 c = (c + 1) % UINT32_MOD := by
        rw [counter2_incr_eq_counter1]
        exact incr_one_eq_mod c
      have hlt : (c + 1) % UINT32_MOD < UINT32_MOD :=
        Nat.mod_lt _ (by norm_num [UINT32_MOD_eq])
      show runSchedule l (Counter2.increment 1 c) = _
      rw [hstep, ih _ hlt, Nat.mod_add_mod]
      congr 1
      simp [List.length_cons]
      ring

lemma sum_count_eq_length {N : Nat} (l : List (Fin N)) :
    (∑ w : Fin N, l.count w) = l.length := by
  induction l with
  | nil => simp
  | cons a l ih =>
      simp only [List.count_cons, List.length_cons]
      rw [Finset.sum_add_distrib, ih]
      congr 1
      simp

/-- C10 (amended): for `N >= 1` workers each issuing `K >= 1` atomic
increments of 1 against one atomic counter initialized to 0, under every
interleaving the final slot value is `(N * K) mod 2 ^ 32` — no increment
is lost, and the value equals exactly `N * K` whenever `N * K < 2 ^ 32`
(the slot is a `Uint32Array` element, so the only deviation from the
exact count is 32-bit wraparound). -/
theorem atomic_increments_never_lost (N K : Nat) (hN : 1 ≤ N) (hK : 1 ≤ K)
    (sched : List (Fin N)) (hint : isInterleaving K sched) :
    runSchedule sched 0 = (N * K) % UINT32_MOD
    ∧ (N * K < UINT32_MOD → runSchedule sched 0 = N * K) := by
  have hlen : sched.length = N * K := by
    have hint2 : ∀ w : Fin N, sched.count w = K := hint
    rw [← sum_count_eq_length sched]
    simp only [hint2]
    simp [Finset.sum_const, Finset.card_univ, mul_comm]
  have hmain : runSchedule sched 0 = (N * K) % UINT32_MOD := by
    rw [runSchedule_eq_mod sched 0 (by norm_num [UINT32_MOD_eq]), hlen]
    simp
  exact ⟨hmain, fun hlt => by rw [hmain]; exact Nat.mod_eq_of_lt hlt⟩

theorem atomic_increments_never_lost_witness :
    (1 ≤ 2 ∧ 1 ≤ 2)
    ∧ isInterleaving 2 ([0, 1, 0, 1] : List (Fin 2))
    ∧ runSchedule ([0, 1, 0, 1] : List (Fin 2)) 0 = (2 * 2) % UINT32_MOD := by
  have h := atomic_increments_never_lost 2 2 (by norm_num) (by norm_num)
    [0, 1, 0, 1] (by decide)
  exact ⟨⟨by norm_num, by norm_num⟩, by decide, h.1⟩

/-- C10 (counterexample to the claim as stated): with `N = 2 ^ 32`
workers and `K = 1` increment each, the schedule that runs the workers
once each in order is an interleaving, yet the final slot value is `0`,
not `N * K = 2 ^ 32`: the `Uint32Array` slot wraps, so "the final
counter value equals exactly N*K" fails for `N * K >= 2 ^ 32`. -/
theorem atomic_exact_count_fails_on_wrap :
    isInterleaving 1 (List.finRange UINT32_MOD)
    ∧ runSchedule (List.finRange UINT32_MOD) 0 = 0
    ∧ UINT32_MOD * 1 ≠ 0 := by
  refine ⟨?_, ?_, by norm_num [UINT32_MOD_eq]⟩
  · intro w
    exact List.count_eq_one_of_mem (List.nodup_finRange _) (List.mem_finRange w)
  · rw [runSchedule_eq_mod _ 0 (by norm_num [UINT32_MOD_eq])]
    simp
